import Mathlib

/-!
Shallow embedding of the lazymc status/login interception pipeline from
`src/status.rs`: the per-connection `serve` loop and the pure status
synthesizer `server_status`, together with the data model they act on.

External collaborators (the protocol codec, the ban store, the backend
orchestrator, the relay) are not part of the given sources; they are
modelled as inputs of the step function and as recorded effects in its
output, following §6 of the design document.
-/

namespace Lazymc

/-- Protocol sub-state of a connection (`proto::client::ClientState`). -/
inductive ClientState where
  | handshake
  | status
  | login
  | transfer
deriving DecidableEq, Repr

/-- Modelled from the spec: `ClientState::from_id` lives in
`proto/client.rs`, which is not among the given sources. Per §3 of the
design document, the next phase is computed from the declared target
state of the handshake, advancing `Handshake → {Status, Login, Transfer}`,
and an unknown target state closes the connection. Wire ids 1/2/3 are the
protocol's status/login/transfer target states. -/
def ClientState.from_id : Int → Option ClientState
  | 1 => some ClientState.status
  | 2 => some ClientState.login
  | 3 => some ClientState.transfer
  | _ => none

/-- Packet id of the serverbound handshake packet
(`packets::handshake::SERVER_HANDSHAKE`). -/
def SERVER_HANDSHAKE : Int := 0

/-- Packet id of the serverbound status request packet
(`packets::status::SERVER_STATUS`). -/
def SERVER_STATUS : Int := 0

/-- Packet id of the serverbound ping packet
(`packets::status::SERVER_PING`). -/
def SERVER_PING : Int := 1

/-- Packet id of the serverbound login start packet
(`packets::login::SERVER_LOGIN_START`). -/
def SERVER_LOGIN_START : Int := 0

/-- Lockout configuration (`config.lockout`). -/
structure LockoutConfig where
  enabled : Bool
  message : String
deriving DecidableEq, Repr

/-- MOTD configuration (`config.motd`). -/
structure MotdConfig where
  sleeping : String
  starting : String
  stopping : String
  from_server : Bool
deriving DecidableEq, Repr

/-- Publicly advertised fallback version configuration (`config.public`). -/
structure PublicConfig where
  version : String
  protocol : Int
deriving DecidableEq, Repr

/-- The slice of the configuration used by `status.rs`. -/
structure Config where
  lockout : LockoutConfig
  motd : MotdConfig
  public : PublicConfig
deriving DecidableEq, Repr

/-- Backend server state (`server::State`). -/
inductive ServerState where
  | Stopped
  | Starting
  | Started
  | Stopping
deriving DecidableEq, Repr

/-- Chat message used as the status description
(`minecraft_protocol::data::chat::Message`); only its text payload matters
here. `Message.ofText s` stands for `Message::new(Payload::text(s))`. -/
structure Message where
  text : String
deriving DecidableEq, Repr

/-- Builds a plain-text chat message, as `Message::new(Payload::text(s))`. -/
def Message.ofText (s : String) : Message :=
  { text := s }

/-- Server version record inside a status (`ServerVersion`). -/
structure ServerVersion where
  name : String
  protocol : Int
deriving DecidableEq, Repr

/-- Entry of the player sample list (`OnlinePlayer`). -/
structure Player where
  name : String
  id : String
deriving DecidableEq, Repr

/-- Online player counts inside a status (`OnlinePlayers`). -/
structure OnlinePlayers where
  online : Int
  max : Int
  sample : List Player
deriving DecidableEq, Repr

/-- A server status object (`ServerStatus`), both as the backend snapshot
and as the synthesized reply. -/
structure ServerStatus where
  version : ServerVersion
  description : Message
  players : OnlinePlayers
deriving DecidableEq, Repr

/-- Modelled from the spec: the ban store entry (`BanEntry`) is owned by
the external server module; §6 gives it as `BanEntry{reason, active: bool}`. -/
structure BanEntry where
  reason : String
  active : Bool
deriving DecidableEq, Repr

/-- Modelled from the spec: `BanEntry::is_banned` reports whether the
entry is an active ban (§6 `active: bool`). -/
def BanEntry.is_banned (b : BanEntry) : Bool :=
  b.active

/-- Decoded handshake payload (`Handshake`): the fields `status.rs` reads. -/
structure HandshakeData where
  protocol_version : Int
  next_state : Int
deriving DecidableEq, Repr

/-- Decoded login start payload (`LoginStart`): the field `status.rs` reads. -/
structure LoginStartData where
  name : String
deriving DecidableEq, Repr

/-- A framed packet as produced by `packet::read_packet`: its id, its
decoded-payload bytes, and its exact raw wire bytes. -/
structure Packet where
  id : Int
  data : List Nat
  raw : List Nat
deriving DecidableEq, Repr

/-- Client info collected during interception (`ClientInfo`): the fields
`status.rs` writes. -/
structure ClientInfo where
  protocol_version : Option Int
  username : Option String
deriving DecidableEq, Repr

/-- `ClientInfo::empty`. -/
def ClientInfo.empty : ClientInfo :=
  { protocol_version := none, username := none }

/-- Mutable per-connection state threaded through the `serve` loop:
the client state, the collected client info, and the inbound history
ledger (`inbound_history`). -/
structure ConnState where
  clientState : ClientState
  client_info : ClientInfo
  inbound_history : List Nat
deriving DecidableEq, Repr

/-- The connection state at the top of `serve`. -/
def ConnState.initial : ConnState :=
  { clientState := ClientState.handshake
    client_info := ClientInfo.empty
    inbound_history := [] }

/-- Environment of one connection: the external collaborators consulted by
the loop. The codec functions stand for `Handshake::decode` and
`LoginStart::decode`; `banEntry` is the result of
`server.ban_entry(client.peer.ip())`; the server state and snapshot feed
`server_status`. -/
structure Env where
  decodeHandshake : List Nat → Option HandshakeData
  decodeLoginStart : List Nat → Option LoginStartData
  config : Config
  banEntry : Option BanEntry
  serverState : ServerState
  serverStatus : Option ServerStatus

/-- Bytes or messages written back to the client during one step. -/
inductive WriteOut where
  | statusResponse (s : ServerStatus)
  | pingEcho (bytes : List Nat)
  | kick (reason : String)
deriving DecidableEq, Repr

/-- Data handed to `join::occupy` at handoff. -/
structure HandoffData where
  client_info : ClientInfo
  inbound_history : List Nat
  login_queue : List Nat
deriving DecidableEq, Repr

/-- Loop control after one step: keep looping, break out, or hand off. -/
inductive Control where
  | cont
  | stop
  | handoff (h : HandoffData)
deriving DecidableEq, Repr

/-- Result of one iteration of the `serve` loop: the updated connection
state, the read buffer after the step, the writes performed, whether
`Server::start` was requested (and with which username), and the loop
control. -/
structure StepOut where
  state : ConnState
  buf : List Nat
  writes : List WriteOut
  startRequest : Option (Option String)
  control : Control
deriving DecidableEq, Repr

/-- Build server status object to respond to client with
(`server_status` in `status.rs`), as a pure function of the configuration,
the last known snapshot, and the backend state. -/
def server_status (config : Config) (status : Option ServerStatus)
    (state : ServerState) : ServerStatus :=
  let versionMax : ServerVersion × Int :=
    match status with
    | some s => (s.version, s.players.max)
    | none =>
      ({ name := config.public.version, protocol := config.public.protocol }, 0)
  let template : String :=
    match state with
    | ServerState.Stopped | ServerState.Started => config.motd.sleeping
    | ServerState.Starting => config.motd.starting
    | ServerState.Stopping => config.motd.stopping
  let description : Message :=
    match status with
    | some s =>
      if config.motd.from_server then s.description else Message.ofText template
    | none => Message.ofText template
  { version := versionMax.1
    description := description
    players := { online := 0, max := versionMax.2, sample := [] } }

/-- The tail of the login-start arm once the Access Gate has passed:
request a backend start, extend the inbound history with the raw login
bytes and the unconsumed buffer, build the login queue, clear the buffer,
and hand off to `join::occupy`. -/
def loginProceed (st : ConnState) (packet : Packet) (buf : List Nat)
    (username : Option String) : StepOut :=
  let history := st.inbound_history ++ packet.raw ++ buf
  let login_queue := packet.raw ++ buf
  { state := { st with inbound_history := history }
    buf := []
    writes := []
    startRequest := some username
    control :=
      Control.handoff
        { client_info := st.client_info
          inbound_history := history
          login_queue := login_queue } }

/-- One iteration of the `serve` loop in `status.rs`, applied to the packet
just read (with its raw wire bytes `packet.raw`) and the bytes already read
from the socket but not yet consumed as frames (`buf`). -/
def serveStep (env : Env) (st : ConnState) (packet : Packet)
    (buf : List Nat) : StepOut :=
  if st.clientState = ClientState.handshake ∧ packet.id = SERVER_HANDSHAKE then
    match env.decodeHandshake packet.data with
    | none =>
      { state := st, buf := buf, writes := [], startRequest := none
        control := Control.stop }
    | some handshake =>
      match ClientState.from_id handshake.next_state with
      | none =>
        { state := st, buf := buf, writes := [], startRequest := none
          control := Control.stop }
      | some new_state =>
        let info :=
          { st.client_info with protocol_version := some handshake.protocol_version }
        let history :=
          if new_state = ClientState.login then st.inbound_history ++ packet.raw
          else st.inbound_history
        { state :=
            { clientState := new_state, client_info := info
              inbound_history := history }
          buf := buf, writes := [], startRequest := none
          control := Control.cont }
  else if st.clientState = ClientState.status ∧ packet.id = SERVER_STATUS then
    { state := st, buf := buf
      writes :=
        [WriteOut.statusResponse
          (server_status env.config env.serverStatus env.serverState)]
      startRequest := none, control := Control.cont }
  else if st.clientState = ClientState.status ∧ packet.id = SERVER_PING then
    { state := st, buf := buf, writes := [WriteOut.pingEcho packet.raw]
      startRequest := none, control := Control.cont }
  else if st.clientState = ClientState.login ∧ packet.id = SERVER_LOGIN_START then
    let username := (env.decodeLoginStart packet.data).map LoginStartData.name
    let st1 : ConnState :=
      { st with client_info := { st.client_info with username := username } }
    if env.config.lockout.enabled then
      { state := st1, buf := buf
        writes := [WriteOut.kick env.config.lockout.message]
        startRequest := none, control := Control.stop }
    else
      match env.banEntry with
      | some ban =>
        if ban.is_banned then
          { state := st1, buf := buf, writes := [WriteOut.kick ban.reason]
            startRequest := none, control := Control.stop }
        else loginProceed st1 packet buf username
      | none => loginProceed st1 packet buf username
  else
    { state := st, buf := buf, writes := [], startRequest := none
      control := Control.cont }

/-- Outcome of running the `serve` loop over a trace of frames. -/
inductive RunResult where
  | ended (st : ConnState)
  | stopped (st : ConnState)
  | handedOff (h : HandoffData)
deriving DecidableEq, Repr

/-- The `serve` loop over a trace: each trace element is a frame together
with the buffer contents left unconsumed by `read_packet` after extracting
that frame. An exhausted trace models a clean end of stream. -/
def serveRun (env : Env) : ConnState → List (Packet × List Nat) → RunResult
  | st, [] => RunResult.ended st
  | st, (p, buf) :: rest =>
    let out := serveStep env st p buf
    match out.control with
    | Control.cont => serveRun env out.state rest
    | Control.stop => RunResult.stopped out.state
    | Control.handoff h => RunResult.handedOff h

/-- The per-step outputs produced while running the `serve` loop over a
trace, up to and including the step that breaks or hands off. -/
def runOuts (env : Env) : ConnState → List (Packet × List Nat) → List StepOut
  | _, [] => []
  | st, (p, buf) :: rest =>
    let out := serveStep env st p buf
    out ::
      match out.control with
      | Control.cont => runOuts env out.state rest
      | _ => []

/-!
Concrete fixtures used by witnesses and counterexamples: an executable
stand-in codec and a small configuration.
-/

/-- A concrete executable handshake decoder for fixtures: a payload of
exactly two bytes decodes to (protocol version, next state). -/
def testDecodeHandshake : List Nat → Option HandshakeData
  | [pv, ns] => some { protocol_version := (pv : Int), next_state := (ns : Int) }
  | _ => none

/-- A concrete executable login-start decoder for fixtures: an empty
payload fails to decode, anything else decodes to the name "alice". -/
def testDecodeLoginStart : List Nat → Option LoginStartData
  | [] => none
  | _ :: _ => some { name := "alice" }

/-- A concrete configuration fixture. -/
def testConfig : Config :=
  { lockout := { enabled := false, message := "under maintenance" }
    motd :=
      { sleeping := "asleep", starting := "warming up"
        stopping := "shutting down", from_server := false }
    public := { version := "1.19.3", protocol := 761 } }

/-- A concrete environment fixture: lockout disabled, no ban entry,
backend stopped with no snapshot. -/
def testEnv : Env :=
  { decodeHandshake := testDecodeHandshake
    decodeLoginStart := testDecodeLoginStart
    config := testConfig
    banEntry := none
    serverState := ServerState.Stopped
    serverStatus := none }

/-- The fixture environment with lockout enabled. -/
def testLockoutEnv : Env :=
  { testEnv with
    config :=
      { testConfig with lockout := { enabled := true, message := "under maintenance" } } }

/-- An active ban entry fixture. -/
def testActiveBan : BanEntry :=
  { reason := "cheating", active := true }

/-- An inactive (expired) ban entry fixture. -/
def testInactiveBan : BanEntry :=
  { reason := "old offence", active := false }

/-- The fixture environment with an active ban for the peer. -/
def testBanEnv : Env :=
  { testEnv with banEntry := some testActiveBan }

/-- The fixture environment with an inactive ban for the peer. -/
def testOldBanEnv : Env :=
  { testEnv with banEntry := some testInactiveBan }

/-- The fixture environment whose login-start decoder always fails. -/
def testNoDecodeEnv : Env :=
  { testEnv with decodeLoginStart := fun _ => none }

/-- The fixture configuration with `motd.from_server` enabled. -/
def testFromServerConfig : Config :=
  { testConfig with motd := { testConfig.motd with from_server := true } }

/-- A backend snapshot fixture. -/
def testSnapshot : ServerStatus :=
  { version := { name := "backend 1.19.3", protocol := 761 }
    description := Message.ofText "the real motd"
    players := { online := 3, max := 20, sample := [] } }

/-- A handshake packet fixture declaring next state 2 (login). -/
def testHandshakePacket : Packet :=
  { id := 0, data := [761, 2], raw := [10, 11, 12] }

/-- A packet fixture with an id no arm of the loop handles. -/
def testJunkPacket : Packet :=
  { id := 5, data := [], raw := [99, 98] }

/-- A login-start packet fixture. -/
def testLoginPacket : Packet :=
  { id := 0, data := [1], raw := [20, 21] }

/-- A ping packet fixture. -/
def testPingPacket : Packet :=
  { id := 1, data := [42], raw := [30, 31, 32] }

/-- A connection-state fixture already in the Login phase. -/
def testLoginState : ConnState :=
  { clientState := ClientState.login
    client_info := ClientInfo.empty
    inbound_history := [10, 11, 12] }

/-- A connection-state fixture already in the Status phase. -/
def testStatusState : ConnState :=
  { clientState := ClientState.status
    client_info := { protocol_version := some 761, username := none }
    inbound_history := [] }

/-!
Helper lemmas about single steps of the loop.
-/

/-- `ClientState.from_id` never yields the handshake state, so a
handshake can never send a connection back to the Handshake phase. -/
theorem from_id_ne_handshake (i : Int) :
    ClientState.from_id i ≠ some ClientState.handshake := by
  unfold ClientState.from_id
  split <;> simp

/-- Once the client state has left Handshake, a single step never changes
the client state nor the recorded protocol version. -/
theorem step_clientState_frozen (env : Env) (st : ConnState) (p : Packet)
    (buf : List Nat) (h : st.clientState ≠ ClientState.handshake) :
    (serveStep env st p buf).state.clientState = st.clientState ∧
    (serveStep env st p buf).state.client_info.protocol_version =
      st.client_info.protocol_version := by
  have hc1 : ¬(st.clientState = ClientState.handshake ∧ p.id = SERVER_HANDSHAKE) :=
    fun c => h c.1
  rcases hban : env.banEntry with _ | ban <;>
    · unfold serveStep
      rw [if_neg hc1]
      simp only [hban]
      split_ifs <;> simp [loginProceed]

/-- A step can only hand off from the Login phase on a login-start packet
with the Access Gate passing, and the handed-off data is exactly the
accumulated history extended with the raw login bytes and the unconsumed
buffer. -/
theorem step_handoff_inv (env : Env) (st : ConnState) (p : Packet)
    (buf : List Nat) (h : HandoffData)
    (hc : (serveStep env st p buf).control = Control.handoff h) :
    st.clientState = ClientState.login ∧ p.id = SERVER_LOGIN_START ∧
    env.config.lockout.enabled = false ∧
    (∀ ban, env.banEntry = some ban → ban.is_banned = false) ∧
    h.inbound_history = st.inbound_history ++ p.raw ++ buf ∧
    h.login_queue = p.raw ++ buf ∧
    h.client_info =
      { protocol_version := st.client_info.protocol_version
        username := (env.decodeLoginStart p.data).map LoginStartData.name } := by
  unfold serveStep at hc
  split_ifs at hc with c1 c2 c3 c4 c5
  · split at hc
    · simp at hc
    · split at hc <;> simp at hc
  · have hlock : env.config.lockout.enabled = false := by
      cases henb : env.config.lockout.enabled
      · rfl
      · exact absurd henb c5
    rcases hban : env.banEntry with _ | ban
    · simp only [hban, loginProceed] at hc
      refine ⟨c4.1, c4.2, hlock, by simp [hban], ?_⟩
      rw [Control.handoff.injEq] at hc
      subst hc
      simp
    · simp only [hban] at hc
      rcases hbanned : ban.is_banned with _ | _
      · simp only [hbanned, Bool.false_eq_true, if_false, loginProceed] at hc
        refine ⟨c4.1, c4.2, hlock, ?_, ?_⟩
        · intro b hb
          cases hb
          exact hbanned
        · rw [Control.handoff.injEq] at hc
          subst hc
          simp
      · simp [hbanned] at hc

/-- In the Login phase, a step that keeps looping must have fallen
through to the unhandled-packet arm: nothing at all changes. -/
theorem step_login_cont (env : Env) (st : ConnState) (p : Packet)
    (buf : List Nat) (hs : st.clientState = ClientState.login)
    (hc : (serveStep env st p buf).control = Control.cont) :
    serveStep env st p buf =
      { state := st, buf := buf, writes := [], startRequest := none
        control := Control.cont } := by
  unfold serveStep
  unfold serveStep at hc
  split_ifs at hc with c1 c2 c3 c4
  · exact absurd c1.1 (by rw [hs]; intro hcontra; cases hcontra)
  · exact absurd c2.1 (by rw [hs]; intro hcontra; cases hcontra)
  · exact absurd c3.1 (by rw [hs]; intro hcontra; cases hcontra)
  · exfalso
    rcases hban : env.banEntry with _ | ban
    · simp [hban, loginProceed] at hc
    · simp only [hban] at hc
      rcases hbanned : ban.is_banned with _ | _ <;>
        simp [hbanned, loginProceed] at hc
  · rw [if_neg c1, if_neg c2, if_neg c3, if_neg c4]

/-- In the Handshake phase, a packet that is not a handshake falls through
to the unhandled-packet arm: nothing at all changes. -/
theorem step_handshake_other (env : Env) (st : ConnState) (p : Packet)
    (buf : List Nat) (hs : st.clientState = ClientState.handshake)
    (hp : p.id ≠ SERVER_HANDSHAKE) :
    serveStep env st p buf =
      { state := st, buf := buf, writes := [], startRequest := none
        control := Control.cont } := by
  unfold serveStep
  rw [if_neg (fun c => hp c.2),
    if_neg (fun c => by rw [hs] at c; cases c.1),
    if_neg (fun c => by rw [hs] at c; cases c.1),
    if_neg (fun c => by rw [hs] at c; cases c.1)]

/-- If a step changed the client state, the old state was Handshake, the
packet was a handshake, and the new state is exactly the one declared by
the decoded handshake. -/
theorem step_state_change_inv (env : Env) (st : ConnState) (p : Packet)
    (buf : List Nat)
    (hc : (serveStep env st p buf).state.clientState ≠ st.clientState) :
    st.clientState = ClientState.handshake ∧ p.id = SERVER_HANDSHAKE ∧
    ∃ hs2, env.decodeHandshake p.data = some hs2 ∧
      ClientState.from_id hs2.next_state =
        some (serveStep env st p buf).state.clientState := by
  by_cases c1 : st.clientState = ClientState.handshake ∧ p.id = SERVER_HANDSHAKE
  · refine ⟨c1.1, c1.2, ?_⟩
    unfold serveStep at hc ⊢
    rw [if_pos c1] at hc ⊢
    rcases hdec : env.decodeHandshake p.data with _ | hs2
    · exfalso
      simp [hdec] at hc
    · rcases hnext : ClientState.from_id hs2.next_state with _ | ns
      · exfalso
        simp [hdec, hnext] at hc
      · refine ⟨hs2, rfl, ?_⟩
        simp [hdec, hnext]
  · exfalso
    apply hc
    unfold serveStep
    rw [if_neg c1]
    split_ifs <;> try rfl
    all_goals
      rcases hban : env.banEntry with _ | ban
      · simp [loginProceed]
      · rcases hbanned : ban.is_banned with _ | _ <;>
          simp [hbanned, loginProceed]

/-!
Helper lemmas about whole runs of the loop.
-/

/-- Once the client state has left Handshake, every state observed along
any further run keeps the same client state and protocol version. -/
theorem runOuts_frozen (env : Env) (events : List (Packet × List Nat)) :
    ∀ st : ConnState, st.clientState ≠ ClientState.handshake →
      ∀ o ∈ runOuts env st events,
        o.state.clientState = st.clientState ∧
        o.state.client_info.protocol_version = st.client_info.protocol_version := by
  induction events with
  | nil =>
    intro st _ o ho
    simp [runOuts] at ho
  | cons e rest ih =>
    intro st h o ho
    obtain ⟨p, buf⟩ := e
    have hfreeze := step_clientState_frozen env st p buf h
    simp only [runOuts, List.mem_cons] at ho
    rcases ho with rfl | ho
    · exact hfreeze
    · rcases hctl : (serveStep env st p buf).control with _ | _ | h2 <;>
        rw [hctl] at ho
      · have hne : (serveStep env st p buf).state.clientState ≠
            ClientState.handshake := by
          rw [hfreeze.1]; exact h
        have := ih (serveStep env st p buf).state hne o ho
        exact ⟨hfreeze.1 ▸ this.1, hfreeze.2 ▸ this.2⟩
      · simp at ho
      · simp at ho

/-- A run that starts outside both the Handshake and the Login phases can
never reach a handoff. -/
theorem run_no_handoff (env : Env) (events : List (Packet × List Nat)) :
    ∀ st : ConnState, st.clientState ≠ ClientState.handshake →
      st.clientState ≠ ClientState.login →
      ∀ h, serveRun env st events ≠ RunResult.handedOff h := by
  induction events with
  | nil =>
    intro st _ _ h hr
    simp [serveRun] at hr
  | cons e rest ih =>
    intro st hh hl h hr
    obtain ⟨p, buf⟩ := e
    simp only [serveRun] at hr
    rcases hctl : (serveStep env st p buf).control with _ | _ | h2 <;>
      rw [hctl] at hr
    · have hfreeze := step_clientState_frozen env st p buf hh
      exact ih (serveStep env st p buf).state (hfreeze.1 ▸ hh) (hfreeze.1 ▸ hl)
        h hr
    · simp at hr
    · exact hl (step_handoff_inv env st p buf h2 hctl).1

/-- Equation for the handshake arm when decoding succeeds and the declared
next state is known. -/
theorem step_handshake_eq (env : Env) (st : ConnState) (p : Packet)
    (buf : List Nat) (hs : st.clientState = ClientState.handshake)
    (hp : p.id = SERVER_HANDSHAKE) (hs2 : HandshakeData) (ns : ClientState)
    (hdec : env.decodeHandshake p.data = some hs2)
    (hnext : ClientState.from_id hs2.next_state = some ns) :
    serveStep env st p buf =
      { state :=
          { clientState := ns
            client_info :=
              { protocol_version := some hs2.protocol_version
                username := st.client_info.username }
            inbound_history :=
              if ns = ClientState.login then st.inbound_history ++ p.raw
              else st.inbound_history }
        buf := buf, writes := [], startRequest := none
        control := Control.cont } := by
  unfold serveStep
  rw [if_pos ⟨hs, hp⟩]
  simp only [hdec, hnext]

/-- Equation for the handshake arm when decoding fails or the declared
next state is unknown: the connection is closed. -/
theorem step_handshake_fail (env : Env) (st : ConnState) (p : Packet)
    (buf : List Nat) (hs : st.clientState = ClientState.handshake)
    (hp : p.id = SERVER_HANDSHAKE)
    (hfail : env.decodeHandshake p.data = none ∨
      ∃ hs2, env.decodeHandshake p.data = some hs2 ∧
        ClientState.from_id hs2.next_state = none) :
    serveStep env st p buf =
      { state := st, buf := buf, writes := [], startRequest := none
        control := Control.stop } := by
  unfold serveStep
  rw [if_pos ⟨hs, hp⟩]
  rcases hfail with hdec | ⟨hs2, hdec, hnext⟩
  · simp only [hdec]
  · simp only [hdec, hnext]

/-- A run that hands off from the Login phase does so at its first
login-start frame, and the handed-off ledgers are exactly the
accumulated history plus that frame's raw bytes plus the unconsumed
buffer at that moment. -/
theorem run_login_handoff (env : Env) (events : List (Packet × List Nat)) :
    ∀ (st : ConnState) (h : HandoffData), st.clientState = ClientState.login →
      serveRun env st events = RunResult.handedOff h →
      ∃ pre q bufq post,
        events = pre ++ (q, bufq) :: post ∧
        q.id = SERVER_LOGIN_START ∧
        h.inbound_history = st.inbound_history ++ q.raw ++ bufq ∧
        h.login_queue = q.raw ++ bufq ∧
        h.client_info =
          { protocol_version := st.client_info.protocol_version
            username := (env.decodeLoginStart q.data).map LoginStartData.name } := by
  induction events with
  | nil =>
    intro st h _ hr
    simp [serveRun] at hr
  | cons e rest ih =>
    intro st h hs hr
    obtain ⟨p, buf⟩ := e
    simp only [serveRun] at hr
    rcases hctl : (serveStep env st p buf).control with _ | _ | h2 <;>
      rw [hctl] at hr
    · have heq := step_login_cont env st p buf hs hctl
      rw [heq] at hr
      have hr2 : serveRun env st rest = RunResult.handedOff h := hr
      obtain ⟨pre, q, bufq, post, hev, hq, hhist, hqueue, hinfo⟩ := ih st h hs hr2
      exact ⟨(p, buf) :: pre, q, bufq, post, by rw [hev]; rfl, hq, hhist, hqueue,
        hinfo⟩
    · simp at hr
    · have hinv := step_handoff_inv env st p buf h2 hctl
      rw [RunResult.handedOff.injEq] at hr
      subst hr
      exact ⟨[], p, buf, rest, rfl, hinv.2.1, hinv.2.2.2.2.1, hinv.2.2.2.2.2.1,
        hinv.2.2.2.2.2.2⟩

/-- A run that starts in the Handshake phase and reaches a handoff must
have consumed a handshake frame whose declared next state is Login and,
later, a login-start frame; the full ledger at handoff is exactly the
handshake's raw bytes, then the login-start's raw bytes, then the bytes
still buffered at that moment. Raw bytes of any other frames consumed in
between are not recorded. -/
theorem run_handshake_handoff (env : Env) (events : List (Packet × List Nat)) :
    ∀ (st : ConnState) (h : HandoffData),
      st.clientState = ClientState.handshake →
      serveRun env st events = RunResult.handedOff h →
      ∃ pre p bufp rest hs2,
        events = pre ++ (p, bufp) :: rest ∧
        p.id = SERVER_HANDSHAKE ∧
        env.decodeHandshake p.data = some hs2 ∧
        ClientState.from_id hs2.next_state = some ClientState.login ∧
        ∃ pre2 q bufq post,
          rest = pre2 ++ (q, bufq) :: post ∧
          q.id = SERVER_LOGIN_START ∧
          h.inbound_history = st.inbound_history ++ p.raw ++ q.raw ++ bufq ∧
          h.login_queue = q.raw ++ bufq := by
  induction events with
  | nil =>
    intro st h _ hr
    simp [serveRun] at hr
  | cons e rest0 ih =>
    intro st h hs hr
    obtain ⟨p, buf⟩ := e
    simp only [serveRun] at hr
    by_cases hp : p.id = SERVER_HANDSHAKE
    · rcases hdec : env.decodeHandshake p.data with _ | hs2
      · rw [step_handshake_fail env st p buf hs hp (Or.inl hdec)] at hr
        simp at hr
      · rcases hnext : ClientState.from_id hs2.next_state with _ | ns
        · rw [step_handshake_fail env st p buf hs hp
            (Or.inr ⟨hs2, hdec, hnext⟩)] at hr
          simp at hr
        · rw [step_handshake_eq env st p buf hs hp hs2 ns hdec hnext] at hr
          cases ns with
          | handshake => exact absurd hnext (from_id_ne_handshake _)
          | status =>
            exfalso
            have hr2 :
                serveRun env
                  { clientState := ClientState.status
                    client_info :=
                      { protocol_version := some hs2.protocol_version
                        username := st.client_info.username }
                    inbound_history := st.inbound_history } rest0 =
                  RunResult.handedOff h := hr
            exact run_no_handoff env rest0 _ (by intro hcon; cases hcon)
              (by intro hcon; cases hcon) h hr2
          | transfer =>
            exfalso
            have hr2 :
                serveRun env
                  { clientState := ClientState.transfer
                    client_info :=
                      { protocol_version := some hs2.protocol_version
                        username := st.client_info.username }
                    inbound_history := st.inbound_history } rest0 =
                  RunResult.handedOff h := hr
            exact run_no_handoff env rest0 _ (by intro hcon; cases hcon)
              (by intro hcon; cases hcon) h hr2
          | login =>
            have hr2 :
                serveRun env
                  { clientState := ClientState.login
                    client_info :=
                      { protocol_version := some hs2.protocol_version
                        username := st.client_info.username }
                    inbound_history := st.inbound_history ++ p.raw } rest0 =
                  RunResult.handedOff h := hr
            obtain ⟨pre2, q, bufq, post, hev2, hq, hhist, hqueue, _⟩ :=
              run_login_handoff env rest0 _ h rfl hr2
            exact ⟨[], p, buf, rest0, hs2, rfl, hp, hdec, hnext, pre2, q, bufq,
              post, hev2, hq, hhist, hqueue⟩
    · rw [step_handshake_other env st p buf hs hp] at hr
      have hr2 : serveRun env st rest0 = RunResult.handedOff h := hr
      obtain ⟨pre, p1, bufp, rest1, hs2, hev, hid, hdec, hnext, htail⟩ :=
        ih st h hs hr2
      exact ⟨(p, buf) :: pre, p1, bufp, rest1, hs2, by rw [hev]; rfl, hid, hdec,
        hnext, htail⟩

/-- In the Login phase, the handshake/status/ping guards of the dispatch
all fail, whatever the packet. -/
theorem login_guards (st : ConnState) (p : Packet)
    (hs : st.clientState = ClientState.login) :
    ¬(st.clientState = ClientState.handshake ∧ p.id = SERVER_HANDSHAKE) ∧
    ¬(st.clientState = ClientState.status ∧ p.id = SERVER_STATUS) ∧
    ¬(st.clientState = ClientState.status ∧ p.id = SERVER_PING) := by
  rw [hs]
  refine ⟨?_, ?_, ?_⟩ <;> rintro ⟨c, -⟩ <;> cases c

/-- Equation for the login-start arm: in the Login phase, a login-start
packet runs the username decode, the lockout check, the ban check, and
otherwise proceeds to handoff. -/
theorem step_login_eq (env : Env) (st : ConnState) (p : Packet)
    (buf : List Nat) (hs : st.clientState = ClientState.login)
    (hp : p.id = SERVER_LOGIN_START) :
    serveStep env st p buf =
      (let username := (env.decodeLoginStart p.data).map LoginStartData.name
       let st1 : ConnState :=
         { st with client_info := { st.client_info with username := username } }
       if env.config.lockout.enabled then
         { state := st1, buf := buf
           writes := [WriteOut.kick env.config.lockout.message]
           startRequest := none, control := Control.stop }
       else
         match env.banEntry with
         | some ban =>
           if ban.is_banned then
             { state := st1, buf := buf, writes := [WriteOut.kick ban.reason]
               startRequest := none, control := Control.stop }
           else loginProceed st1 p buf username
         | none => loginProceed st1 p buf username) := by
  obtain ⟨hc1, hc2, hc3⟩ := login_guards st p hs
  unfold serveStep
  rw [if_neg hc1, if_neg hc2, if_neg hc3, if_pos ⟨hs, hp⟩]

/-!
The claims.
-/

/-- Claim C1: for every login-start handled in the Login phase that passes
the Access Gate (lockout disabled and no active ban), the step hands off,
the from-login-onward ledger handed to the relay is exactly the raw wire
bytes of the login-start message followed by the bytes already read from
the socket but not yet consumed as frames, and the working read buffer is
empty at handoff. -/
theorem login_ledger_exact (env : Env) (st : ConnState) (p : Packet)
    (buf : List Nat) (hs : st.clientState = ClientState.login)
    (hp : p.id = SERVER_LOGIN_START)
    (hl : env.config.lockout.enabled = false)
    (hb : ∀ ban, env.banEntry = some ban → ban.is_banned = false) :
    ∃ h, (serveStep env st p buf).control = Control.handoff h ∧
      h.login_queue = p.raw ++ buf ∧
      (serveStep env st p buf).buf = [] := by
  obtain ⟨hc1, hc2, hc3⟩ := login_guards st p hs
  unfold serveStep
  rw [if_neg hc1, if_neg hc2, if_neg hc3, if_pos ⟨hs, hp⟩]
  rcases hban : env.banEntry with _ | ban
  · simp [hl, loginProceed]
  · simp [hl, hb ban hban, loginProceed]

/-- Witness for claim C1: a concrete gate-passing login-start with the
bytes `[7, 8]` buffered beyond it. -/
theorem login_ledger_exact_witness :
    testLoginState.clientState = ClientState.login ∧
    testLoginPacket.id = SERVER_LOGIN_START ∧
    testEnv.config.lockout.enabled = false ∧
    ∃ h, (serveStep testEnv testLoginState testLoginPacket [7, 8]).control =
        Control.handoff h ∧
      h.login_queue = testLoginPacket.raw ++ [7, 8] ∧
      (serveStep testEnv testLoginState testLoginPacket [7, 8]).buf = [] :=
  ⟨rfl, rfl, rfl,
    login_ledger_exact testEnv testLoginState testLoginPacket [7, 8] rfl rfl rfl
      (fun ban hban => by simp [testEnv] at hban)⟩

/-- Claim C2, amended: a run from the initial state that reaches handoff
consumed a handshake frame declaring Login and later a login-start frame,
and the full-since-handshake ledger is exactly the handshake's raw bytes,
then the login-start's raw bytes, then the unconsumed buffered bytes at
that moment; raw bytes of other frames consumed in between are not
recorded. -/
theorem full_ledger_at_handoff (env : Env) (events : List (Packet × List Nat))
    (h : HandoffData)
    (hr : serveRun env ConnState.initial events = RunResult.handedOff h) :
    ∃ pre p bufp rest hs2,
      events = pre ++ (p, bufp) :: rest ∧
      p.id = SERVER_HANDSHAKE ∧
      env.decodeHandshake p.data = some hs2 ∧
      ClientState.from_id hs2.next_state = some ClientState.login ∧
      ∃ pre2 q bufq post,
        rest = pre2 ++ (q, bufq) :: post ∧
        q.id = SERVER_LOGIN_START ∧
        h.inbound_history = p.raw ++ q.raw ++ bufq ∧
        h.login_queue = q.raw ++ bufq := by
  obtain ⟨pre, p, bufp, rest, hs2, hev, hid, hdec, hnext, pre2, q, bufq, post,
    hev2, hq, hhist, hqueue⟩ :=
    run_handshake_handoff env events ConnState.initial h rfl hr
  refine ⟨pre, p, bufp, rest, hs2, hev, hid, hdec, hnext, pre2, q, bufq, post,
    hev2, hq, ?_, hqueue⟩
  simpa [ConnState.initial] using hhist

/-- Witness for claim C2's amended theorem on a concrete two-frame trace. -/
theorem full_ledger_at_handoff_witness :
    ∃ pre p bufp rest hs2,
      ([(testHandshakePacket, ([] : List Nat)), (testLoginPacket, [7, 8])] :
          List (Packet × List Nat)) = pre ++ (p, bufp) :: rest ∧
      p.id = SERVER_HANDSHAKE ∧
      testEnv.decodeHandshake p.data = some hs2 ∧
      ClientState.from_id hs2.next_state = some ClientState.login ∧
      ∃ pre2 q bufq post,
        rest = pre2 ++ (q, bufq) :: post ∧
        q.id = SERVER_LOGIN_START ∧
        ({ client_info :=
             { protocol_version := some 761, username := some "alice" }
           inbound_history := [10, 11, 12, 20, 21, 7, 8]
           login_queue := [20, 21, 7, 8] } : HandoffData).inbound_history =
          p.raw ++ q.raw ++ bufq ∧
        ({ client_info :=
             { protocol_version := some 761, username := some "alice" }
           inbound_history := [10, 11, 12, 20, 21, 7, 8]
           login_queue := [20, 21, 7, 8] } : HandoffData).login_queue =
          q.raw ++ bufq :=
  full_ledger_at_handoff testEnv
    [(testHandshakePacket, []), (testLoginPacket, [7, 8])] _ rfl

/-- Counterexample to claim C2 as stated: on this trace the run reaches
handoff, but a frame consumed between the handshake and the login start
(id 5, raw bytes `[99, 98]`) is dropped from the full-since-handshake
ledger, so the ledger differs from the concatenation of the raw bytes of
every frame consumed from the handshake through the login start plus the
buffered bytes. -/
theorem full_ledger_drops_unhandled_frames :
    serveRun testEnv ConnState.initial
        [(testHandshakePacket, []), (testJunkPacket, []),
          (testLoginPacket, [7, 8])] =
      RunResult.handedOff
        { client_info :=
            { protocol_version := some 761, username := some "alice" }
          inbound_history := [10, 11, 12, 20, 21, 7, 8]
          login_queue := [20, 21, 7, 8] } ∧
    ([10, 11, 12, 20, 21, 7, 8] : List Nat) ≠
      testHandshakePacket.raw ++ testJunkPacket.raw ++ testLoginPacket.raw ++
        [7, 8] :=
  ⟨rfl, by decide⟩

/-- Claim C3: with the global lockout flag enabled, every login-start
handled in the Login phase is kicked with the configured lockout message
and the connection is closed, regardless of the claimed username and the
peer's ban status, and no backend start is requested. -/
theorem lockout_kicks_every_login (env : Env) (st : ConnState) (p : Packet)
    (buf : List Nat) (hs : st.clientState = ClientState.login)
    (hp : p.id = SERVER_LOGIN_START)
    (hl : env.config.lockout.enabled = true) :
    (serveStep env st p buf).writes =
      [WriteOut.kick env.config.lockout.message] ∧
    (serveStep env st p buf).control = Control.stop ∧
    (serveStep env st p buf).startRequest = none := by
  obtain ⟨hc1, hc2, hc3⟩ := login_guards st p hs
  unfold serveStep
  rw [if_neg hc1, if_neg hc2, if_neg hc3, if_pos ⟨hs, hp⟩]
  simp [hl]

/-- Witness for claim C3: a concrete login-start under lockout, with an
active ban present to show the lockout fires first. -/
theorem lockout_kicks_every_login_witness :
    testLockoutEnv.config.lockout.enabled = true ∧
    (serveStep testLockoutEnv testLoginState testLoginPacket []).writes =
      [WriteOut.kick testLockoutEnv.config.lockout.message] ∧
    (serveStep testLockoutEnv testLoginState testLoginPacket []).control =
      Control.stop ∧
    (serveStep testLockoutEnv testLoginState testLoginPacket []).startRequest =
      none :=
  ⟨rfl,
    lockout_kicks_every_login testLockoutEnv testLoginState testLoginPacket []
      rfl rfl rfl⟩

/-- Claim C4: with lockout disabled and an active ban entry for the peer,
the login-start is kicked with the ban entry's stored reason, the
connection is closed, and no backend start is requested. -/
theorem active_ban_kicks (env : Env) (st : ConnState) (p : Packet)
    (buf : List Nat) (ban : BanEntry)
    (hs : st.clientState = ClientState.login)
    (hp : p.id = SERVER_LOGIN_START)
    (hl : env.config.lockout.enabled = false)
    (hb : env.banEntry = some ban) (ha : ban.is_banned = true) :
    (serveStep env st p buf).writes = [WriteOut.kick ban.reason] ∧
    (serveStep env st p buf).control = Control.stop ∧
    (serveStep env st p buf).startRequest = none := by
  obtain ⟨hc1, hc2, hc3⟩ := login_guards st p hs
  unfold serveStep
  rw [if_neg hc1, if_neg hc2, if_neg hc3, if_pos ⟨hs, hp⟩]
  simp [hl, hb, ha]

/-- Witness for claim C4: a concrete login-start from a peer with an
active ban. -/
theorem active_ban_kicks_witness :
    testBanEnv.config.lockout.enabled = false ∧
    testBanEnv.banEntry = some testActiveBan ∧
    testActiveBan.is_banned = true ∧
    (serveStep testBanEnv testLoginState testLoginPacket []).writes =
      [WriteOut.kick testActiveBan.reason] ∧
    (serveStep testBanEnv testLoginState testLoginPacket []).control =
      Control.stop ∧
    (serveStep testBanEnv testLoginState testLoginPacket []).startRequest =
      none :=
  ⟨rfl, rfl, rfl,
    active_ban_kicks testBanEnv testLoginState testLoginPacket [] testActiveBan
      rfl rfl rfl rfl rfl⟩

/-- Claim C5: with no backend snapshot and backend state Stopped, the
synthesized status reply uses the configured "sleeping" template as its
description, the configured public fallback version name and protocol
number, online count 0, max players 0, and an empty player sample. -/
theorem status_fallback_stopped (config : Config) :
    server_status config none ServerState.Stopped =
      { version :=
          { name := config.public.version, protocol := config.public.protocol }
        description := Message.ofText config.motd.sleeping
        players := { online := 0, max := 0, sample := [] } } := by
  simp [server_status]

/-- Claim C6: with a backend snapshot present and `motd.from_server`
enabled, the synthesized status reply's description is the snapshot's
description verbatim, whatever the backend state and the configured
templates. -/
theorem status_description_from_server (config : Config) (s : ServerStatus)
    (state : ServerState) (h : config.motd.from_server = true) :
    (server_status config (some s) state).description = s.description := by
  simp [server_status, h]

/-- Witness for claim C6: a concrete snapshot with `from_server` enabled,
in the Starting state whose template differs from the snapshot text. -/
theorem status_description_from_server_witness :
    testFromServerConfig.motd.from_server = true ∧
    (server_status testFromServerConfig (some testSnapshot)
        ServerState.Starting).description = testSnapshot.description :=
  ⟨rfl,
    status_description_from_server testFromServerConfig testSnapshot
      ServerState.Starting rfl⟩

/-- Claim C7: handling a status-request or a ping in the Status phase
changes nothing: the connection state (phase, client info, inbound
ledger) and the buffer are untouched, no backend start is requested, and
the loop continues. -/
theorem status_ping_pure (env : Env) (st : ConnState) (p : Packet)
    (buf : List Nat) (hs : st.clientState = ClientState.status)
    (hp : p.id = SERVER_STATUS ∨ p.id = SERVER_PING) :
    (serveStep env st p buf).state = st ∧
    (serveStep env st p buf).buf = buf ∧
    (serveStep env st p buf).startRequest = none ∧
    (serveStep env st p buf).control = Control.cont := by
  have hc1 : ¬(st.clientState = ClientState.handshake ∧
      p.id = SERVER_HANDSHAKE) := by
    rw [hs]; rintro ⟨c, -⟩; cases c
  unfold serveStep
  rw [if_neg hc1]
  rcases hp with hp | hp
  · rw [if_pos ⟨hs, hp⟩]
    exact ⟨rfl, rfl, rfl, rfl⟩
  · have hc2 : ¬(st.clientState = ClientState.status ∧ p.id = SERVER_STATUS) :=
      fun c => absurd (hp.symm.trans c.2) (by decide)
    rw [if_neg hc2, if_pos ⟨hs, hp⟩]
    exact ⟨rfl, rfl, rfl, rfl⟩

/-- Witness for claim C7: a concrete ping in the Status phase. -/
theorem status_ping_pure_witness :
    testStatusState.clientState = ClientState.status ∧
    testPingPacket.id = SERVER_PING ∧
    (serveStep testEnv testStatusState testPingPacket [3, 4]).state =
      testStatusState ∧
    (serveStep testEnv testStatusState testPingPacket [3, 4]).buf = [3, 4] ∧
    (serveStep testEnv testStatusState testPingPacket [3, 4]).startRequest =
      none ∧
    (serveStep testEnv testStatusState testPingPacket [3, 4]).control =
      Control.cont :=
  ⟨rfl, rfl,
    status_ping_pure testEnv testStatusState testPingPacket [3, 4] rfl
      (Or.inr rfl)⟩

/-- Claim C8: the client state only ever changes from Handshake, to the
state declared by a successfully decoded handshake message, and that
mapping never yields Handshake again, so the phase changes at most once
and never regresses; outside the Handshake phase every step — and every
later step of any run — keeps the client state and the recorded protocol
version unchanged. -/
theorem phase_monotonic (env : Env) (st : ConnState) (p : Packet)
    (buf : List Nat) (events : List (Packet × List Nat)) :
    (st.clientState ≠ ClientState.handshake →
      (serveStep env st p buf).state.clientState = st.clientState ∧
      (serveStep env st p buf).state.client_info.protocol_version =
        st.client_info.protocol_version ∧
      ∀ o ∈ runOuts env st events, o.state.clientState = st.clientState) ∧
    ((serveStep env st p buf).state.clientState ≠ st.clientState →
      st.clientState = ClientState.handshake ∧ p.id = SERVER_HANDSHAKE ∧
      ∃ hs2, env.decodeHandshake p.data = some hs2 ∧
        ClientState.from_id hs2.next_state =
          some (serveStep env st p buf).state.clientState) ∧
    ∀ i : Int, ClientState.from_id i ≠ some ClientState.handshake := by
  refine ⟨fun h => ?_, fun h => step_state_change_inv env st p buf h,
    from_id_ne_handshake⟩
  obtain ⟨h1, h2⟩ := step_clientState_frozen env st p buf h
  exact ⟨h1, h2, fun o ho => (runOuts_frozen env events st h o ho).1⟩

/-- Witness for claim C8: a handshake packet arriving in the Status phase
leaves the phase untouched. -/
theorem phase_monotonic_witness :
    (serveStep testEnv testStatusState testHandshakePacket []).state.clientState =
      ClientState.status ∧
    ∀ i : Int, ClientState.from_id i ≠ some ClientState.handshake := by
  have h := phase_monotonic testEnv testStatusState testHandshakePacket [] []
  exact ⟨(h.1 (by decide)).1, h.2.2⟩

/-- Claim C9: if the login-start payload fails to decode, the pipeline
does not abort: it runs the very same gate/start/ledger/handoff path it
would run with a decoded username, with the username simply absent. Two
environments that agree on configuration and ban entry, one failing to
decode and one decoding a username, produce the same writes, buffer,
ledger, state and control shape, with the username `none` on the failing
side. -/
theorem login_decode_failure_same_path (env env2 : Env) (st : ConnState)
    (p : Packet) (buf : List Nat) (d : LoginStartData)
    (hcfg : env2.config = env.config) (hban : env2.banEntry = env.banEntry)
    (hs : st.clientState = ClientState.login)
    (hp : p.id = SERVER_LOGIN_START)
    (hd : env.decodeLoginStart p.data = none)
    (hd2 : env2.decodeLoginStart p.data = some d) :
    (serveStep env st p buf).state.client_info.username = none ∧
    (serveStep env st p buf).writes = (serveStep env2 st p buf).writes ∧
    (serveStep env st p buf).buf = (serveStep env2 st p buf).buf ∧
    (serveStep env st p buf).state.inbound_history =
      (serveStep env2 st p buf).state.inbound_history ∧
    (serveStep env st p buf).state.clientState =
      (serveStep env2 st p buf).state.clientState ∧
    ((serveStep env st p buf).startRequest = none ↔
      (serveStep env2 st p buf).startRequest = none) ∧
    ((serveStep env st p buf).control = Control.stop ↔
      (serveStep env2 st p buf).control = Control.stop) ∧
    ∀ h2, (serveStep env2 st p buf).control = Control.handoff h2 →
      (serveStep env st p buf).control =
        Control.handoff
          { client_info := { h2.client_info with username := none }
            inbound_history := h2.inbound_history
            login_queue := h2.login_queue } := by
  rw [step_login_eq env st p buf hs hp, step_login_eq env2 st p buf hs hp]
  rcases hlock : env.config.lockout.enabled with _ | _
  · rcases hbe : env.banEntry with _ | ban
    · simp [hcfg, hban, hlock, hbe, hd, hd2, loginProceed]
    · rcases hbb : ban.is_banned with _ | _ <;>
        simp [hcfg, hban, hlock, hbe, hbb, hd, hd2, loginProceed]
  · simp [hcfg, hban, hlock, hd, hd2]

/-- Witness for claim C9: the same login-start under the fixture
environment and a variant whose decoder always fails. -/
theorem login_decode_failure_same_path_witness :
    (serveStep testNoDecodeEnv testLoginState testLoginPacket
        [7, 8]).state.client_info.username = none ∧
    ∀ h2, (serveStep testEnv testLoginState testLoginPacket [7, 8]).control =
        Control.handoff h2 →
      (serveStep testNoDecodeEnv testLoginState testLoginPacket [7, 8]).control =
        Control.handoff
          { client_info := { h2.client_info with username := none }
            inbound_history := h2.inbound_history
            login_queue := h2.login_queue } := by
  have h := login_decode_failure_same_path testNoDecodeEnv testEnv
    testLoginState testLoginPacket [7, 8] { name := "alice" } rfl rfl rfl rfl
    rfl rfl
  exact ⟨h.1, h.2.2.2.2.2.2.2⟩

/-- Claim C10: with lockout disabled, a ban entry that is not active is
ignored: the step behaves exactly as if no ban entry existed, requests the
backend start with the decoded username, and hands off. -/
theorem inactive_ban_ignored (env : Env) (st : ConnState) (p : Packet)
    (buf : List Nat) (ban : BanEntry)
    (hs : st.clientState = ClientState.login)
    (hp : p.id = SERVER_LOGIN_START)
    (hl : env.config.lockout.enabled = false)
    (hb : env.banEntry = some ban) (ha : ban.is_banned = false) :
    serveStep env st p buf = serveStep { env with banEntry := none } st p buf ∧
    (serveStep env st p buf).startRequest =
      some ((env.decodeLoginStart p.data).map LoginStartData.name) ∧
    ∃ h, (serveStep env st p buf).control = Control.handoff h := by
  rw [step_login_eq env st p buf hs hp,
    step_login_eq { env with banEntry := none } st p buf hs hp]
  refine ⟨?_, ?_, ?_⟩ <;> simp [hl, hb, ha, loginProceed]

/-- Witness for claim C10: a concrete login-start from a peer whose ban
entry is inactive. -/
theorem inactive_ban_ignored_witness :
    testOldBanEnv.banEntry = some testInactiveBan ∧
    testInactiveBan.is_banned = false ∧
    serveStep testOldBanEnv testLoginState testLoginPacket [7, 8] =
      serveStep { testOldBanEnv with banEntry := none } testLoginState
        testLoginPacket [7, 8] ∧
    (serveStep testOldBanEnv testLoginState testLoginPacket [7, 8]).startRequest =
      some ((testOldBanEnv.decodeLoginStart testLoginPacket.data).map
        LoginStartData.name) ∧
    ∃ h, (serveStep testOldBanEnv testLoginState testLoginPacket [7, 8]).control =
      Control.handoff h :=
  ⟨rfl, rfl,
    inactive_ban_ignored testOldBanEnv testLoginState testLoginPacket [7, 8]
      testInactiveBan rfl rfl rfl rfl rfl⟩

end Lazymc
